import Mathlib

set_option autoImplicit false

/-!
Shallow embedding of the scrappervsv core: the multi-strategy scraper
chain (src/backend/scrapers/combined_scraper.py) and the asynchronous
task manager (src/backend/tasks.py).  Python dicts are association
lists, Python exceptions are the error side of Except, and the thread
interleavings of the task manager are a small-step transition relation.
-/

/-- A Python value, as far as the orchestration layer inspects one:
None, booleans, strings, lists and string-keyed dicts. -/
inductive PyObj where
  | none
  | bool (b : Bool)
  | str (s : String)
  | list (xs : List PyObj)
  | dict (entries : List (String × PyObj))

/-- A Python dict with string keys, as an association list (keys are
unique in every dict built by the embedded code). -/
abbrev PyDict := List (String × PyObj)

/-- Association-list lookup: Python `d.get(k)` / `k in d`, the value
when the key is present. -/
def alGet {κ α : Type} [DecidableEq κ] (d : List (κ × α)) (k : κ) : Option α :=
  match d with
  | [] => Option.none
  | (k2, v) :: rest => if k2 = k then some v else alGet rest k

/-- Python `d[k] = v`: replaces the value in place when the key exists
(keeping its position), otherwise appends a fresh entry at the end. -/
def alSet {κ α : Type} [DecidableEq κ] (d : List (κ × α)) (k : κ) (v : α) : List (κ × α) :=
  match d with
  | [] => [(k, v)]
  | (k2, w) :: rest => if k2 = k then (k2, v) :: rest else (k2, w) :: alSet rest k v

/-- Python `d.setdefault(k, v)`: inserts `v` only when the key is absent. -/
def alSetdefault {κ α : Type} [DecidableEq κ] (d : List (κ × α)) (k : κ) (v : α) : List (κ × α) :=
  match alGet d k with
  | some _ => d
  | Option.none => d ++ [(k, v)]

/-- Python `d.get(k)` where an absent key reads as None. -/
def pyGet (d : PyDict) (k : String) : PyObj :=
  (alGet d k).getD PyObj.none

/-- Python truthiness of the embedded values. -/
def truthy : PyObj → Bool
  | .none => false
  | .bool b => b
  | .str s => s ≠ ""
  | .list xs => !xs.isEmpty
  | .dict d => !d.isEmpty

mutual

/-- Python repr of the embedded values (string escaping not modelled). -/
def pyRepr : PyObj → String
  | .none => "None"
  | .bool true => "True"
  | .bool false => "False"
  | .str s => "\x27" ++ s ++ "\x27"
  | .list xs => "[" ++ pyReprList xs ++ "]"
  | .dict d => "\x7b" ++ pyReprEntries d ++ "\x7d"

/-- Comma-separated reprs of the elements of a list. -/
def pyReprList : List PyObj → String
  | [] => ""
  | [x] => pyRepr x
  | x :: y :: rest => pyRepr x ++ ", " ++ pyReprList (y :: rest)

/-- Comma-separated `key: value` reprs of the entries of a dict. -/
def pyReprEntries : List (String × PyObj) → String
  | [] => ""
  | [(k, v)] => pyRepr (.str k) ++ ": " ++ pyRepr v
  | (k, v) :: e :: rest => pyRepr (.str k) ++ ": " ++ pyRepr v ++ ", " ++ pyReprEntries (e :: rest)

end

/-- Python str(): identity on strings, repr-like on everything else
(this is what an f-string interpolation applies to a value). -/
def pyStr : PyObj → String
  | .str s => s
  | v => pyRepr v

/-- A scraping strategy as the chain sees one (base.Scraper): a class
name, a can_handle predicate and a scrape operation.  Either method may
raise an exception, modelled as the error side of Except carrying
str(exc).  The chain requires scrape to return a dict (it immediately
calls .get on it), so a well-typed strategy returns a PyDict. -/
structure Strategy where
  name : String
  can_handle : String → Except String Bool
  scrape : String → Except String PyDict

namespace CombinedScraper

/-- The skip test inside CombinedScraper.scrape:
`if scraper.name != 'file' and not scraper.can_handle(url): continue`.
A strategy named "file" is never skipped — the conjunction
short-circuits, so its can_handle is not even evaluated.  Any other
strategy is skipped when can_handle returns False or raises (the
surrounding try treats a raising predicate as "cannot handle"). -/
def shouldSkip (s : Strategy) (url : String) : Bool :=
  if s.name = "file" then false
  else
    match s.can_handle url with
    | .ok b => !b
    | .error _ => true

/-- The dict CombinedScraper.scrape returns when no strategy
succeeded, with the accumulated error strings. -/
def noStrategyResult (errors : List String) : PyDict :=
  [("success", PyObj.bool false),
   ("text", PyObj.str ""),
   ("images", PyObj.list []),
   ("links", PyObj.list []),
   ("metadata", PyObj.dict [("scraper", PyObj.str "none")]),
   ("errors", PyObj.list (errors.map PyObj.str)),
   ("error", PyObj.str "All scraping strategies failed")]

/-- The success path of CombinedScraper.scrape:
`result.setdefault("metadata", dict())` followed by
`result["metadata"]["scraper"] = scraper.name`.  The item assignment
raises TypeError when the present metadata value is not a dict; that
exception is outside the try around scraper.scrape and escapes
CombinedScraper.scrape, hence the Except. -/
def attachScraper (r : PyDict) (nm : String) : Except String PyDict :=
  let r2 := alSetdefault r "metadata" (PyObj.dict [])
  match alGet r2 "metadata" with
  | some (PyObj.dict m) =>
      .ok (alSet r2 "metadata" (PyObj.dict (alSet m "scraper" (PyObj.str nm))))
  | _ => .error "TypeError: item assignment on non-dict metadata"

/-- The loop of CombinedScraper.scrape over the remaining strategies,
carrying the errors accumulated so far.  A strategy is skipped per
shouldSkip; a raising scrape appends
`"<name> scraper raised exception: <exc>"` and continues; a result with
truthy success is returned through attachScraper; a failing result
appends `"<name>: <error>"` only when its error value is present and
truthy.  An .error return models an exception escaping scrape. -/
def scrapeAux : List Strategy → String → List String → Except String PyDict
  | [], _, errors => .ok (noStrategyResult errors)
  | s :: rest, url, errors =>
    if shouldSkip s url then
      scrapeAux rest url errors
    else
      match s.scrape url with
      | .error exc =>
          scrapeAux rest url (errors ++ [s.name ++ " scraper raised exception: " ++ exc])
      | .ok result =>
          if truthy (pyGet result "success") then
            attachScraper result s.name
          else
            match alGet result "error" with
            | some v =>
                if truthy v then
                  scrapeAux rest url (errors ++ [s.name ++ ": " ++ pyStr v])
                else
                  scrapeAux rest url errors
            | Option.none => scrapeAux rest url errors

/-- CombinedScraper.scrape: run the strategies in order starting from
an empty error accumulator. -/
def scrape (scrapers : List Strategy) (url : String) : Except String PyDict :=
  scrapeAux scrapers url []

/-- scrapeAux instrumented with the list of the names of the strategies
whose scrape method is actually invoked (a ghost trace; the first
component agrees with scrapeAux, see scrapeAuxT_fst). -/
def scrapeAuxT : List Strategy → String → List String → List String →
    Except String PyDict × List String
  | [], _, errors, inv => (.ok (noStrategyResult errors), inv)
  | s :: rest, url, errors, inv =>
    if shouldSkip s url then
      scrapeAuxT rest url errors inv
    else
      match s.scrape url with
      | .error exc =>
          scrapeAuxT rest url (errors ++ [s.name ++ " scraper raised exception: " ++ exc])
            (inv ++ [s.name])
      | .ok result =>
          if truthy (pyGet result "success") then
            (attachScraper result s.name, inv ++ [s.name])
          else
            match alGet result "error" with
            | some v =>
                if truthy v then
                  scrapeAuxT rest url (errors ++ [s.name ++ ": " ++ pyStr v]) (inv ++ [s.name])
                else
                  scrapeAuxT rest url errors (inv ++ [s.name])
            | Option.none => scrapeAuxT rest url errors (inv ++ [s.name])

/-- CombinedScraper.scrape together with its invocation trace. -/
def scrapeT (scrapers : List Strategy) (url : String) : Except String PyDict × List String :=
  scrapeAuxT scrapers url [] []

/-- The strategy does not produce a success at this url: it is skipped,
or its scrape raises, or its result has falsy success. -/
def NoSuccess (s : Strategy) (url : String) : Prop :=
  shouldSkip s url = true ∨
  (∃ e, s.scrape url = Except.error e) ∨
  (∃ r, s.scrape url = Except.ok r ∧ truthy (pyGet r "success") = false)

/-- The names a single strategy contributes to the invocation trace:
none when skipped, its own name when its scrape is invoked. -/
def invokedName (s : Strategy) (url : String) : List String :=
  if shouldSkip s url then [] else [s.name]

/-- The entries a single non-succeeding strategy contributes to the
accumulated error list: one entry when its scrape raised or when its
failing result carries a truthy error value, none otherwise. -/
def failEntries (s : Strategy) (url : String) : List String :=
  if shouldSkip s url then []
  else
    match s.scrape url with
    | .error exc => [s.name ++ " scraper raised exception: " ++ exc]
    | .ok result =>
        if truthy (pyGet result "success") then []
        else
          match alGet result "error" with
          | some v => if truthy v then [s.name ++ ": " ++ pyStr v] else []
          | Option.none => []

/-- The scraper name recorded in a result's metadata dict, if any. -/
def metadataScraper (r : PyDict) : Option PyObj :=
  match alGet r "metadata" with
  | some (PyObj.dict m) => alGet m "scraper"
  | _ => Option.none

end CombinedScraper

namespace TaskManager

/-- Outcome of executing a submitted unit of work on a worker thread:
it raised an exception, returned a dict, or returned a non-dict value.
For a non-dict value, tyStr carries the text of str(type(value)). -/
inductive WorkOutcome where
  | raised (msg : String)
  | returnedDict (d : PyDict)
  | returnedOther (tyStr : String)

/-- The conversion performed by submit._callback before it stores the
result into _results: an exception becomes a failure dict carrying
str(exc); a non-dict return value becomes a failure dict carrying
f"Invalid result type \x7btype(result)\x7d"; a dict is stored as-is. -/
def callbackResult : WorkOutcome → PyDict
  | .raised msg => [("success", PyObj.bool false), ("error", PyObj.str msg)]
  | .returnedDict d => d
  | .returnedOther ty =>
      [("success", PyObj.bool false), ("error", PyObj.str ("Invalid result type " ++ ty))]

/-- Phase of the concurrent.futures.Future underlying a job, together
with whether its done-callback has already run.  The library marks a
future done (and Future.done() starts returning True) before it invokes
the added callbacks, and Future.cancel likewise marks the future
cancelled before invoking them. -/
inductive JobPhase where
  | pending
  | running
  | done (outcome : WorkOutcome) (cb : Bool)
  | cancelled (cb : Bool)

/-- Future.done(): True for finished and cancelled futures alike. -/
def futDone : JobPhase → Bool
  | .pending => false
  | .running => false
  | .done _ _ => true
  | .cancelled _ => true

/-- The TaskManager state: nextId models the freshness of the generated
uuid job ids, futures models the _futures dict (job id to the phase of
its future) and results models the _results dict filled in by the
done-callbacks. -/
structure TMState where
  nextId : Nat
  futures : List (Nat × JobPhase)
  results : List (Nat × PyDict)

/-- The state of a freshly constructed TaskManager: no jobs. -/
def initState : TMState := { nextId := 0, futures := [], results := [] }

/-- TaskManager.get_status: an unknown id gives (None, None); a done
future (finished or cancelled) gives ("finished", _results.get(id)),
which is None when the done-callback has not stored a result yet;
anything else gives ("pending", None). -/
def get_status (s : TMState) (id : Nat) : Option String × Option PyDict :=
  match alGet s.futures id with
  | Option.none => (Option.none, Option.none)
  | some ph =>
      if futDone ph then (some "finished", alGet s.results id)
      else (some "pending", Option.none)

/-- The value TaskManager.cancel returns: False for an unknown id,
otherwise Future.cancel(), which succeeds only on a future that has not
started running (and reports True again on an already-cancelled one). -/
def cancel (s : TMState) (id : Nat) : Bool :=
  match alGet s.futures id with
  | Option.none => false
  | some JobPhase.pending => true
  | some JobPhase.running => false
  | some (JobPhase.done _ _) => false
  | some (JobPhase.cancelled _) => true

/-- The interleaved small steps of the engine and its callers:
submit registers a fresh pending future under a fresh id; a worker
claims a pending job (start); the work completes and the future is
marked done before its callbacks run (finishWork); the done-callback
stores the converted result (runCallback); TaskManager.cancel on a
pending future marks it cancelled — this is the transition taken
exactly when cancel returns True on a pending job — and the cancelled
future's callback then also runs: fut.result() raises CancelledError,
whose str() is the empty string (cancelCallback). -/
inductive Step : TMState → TMState → Prop where
  | submit (s : TMState) :
      Step s { nextId := s.nextId + 1,
               futures := alSet s.futures s.nextId JobPhase.pending,
               results := s.results }
  | start (s : TMState) (id : Nat)
      (h : alGet s.futures id = some JobPhase.pending) :
      Step s { s with futures := alSet s.futures id JobPhase.running }
  | finishWork (s : TMState) (id : Nat) (o : WorkOutcome)
      (h : alGet s.futures id = some JobPhase.running) :
      Step s { s with futures := alSet s.futures id (JobPhase.done o false) }
  | runCallback (s : TMState) (id : Nat) (o : WorkOutcome)
      (h : alGet s.futures id = some (JobPhase.done o false)) :
      Step s { nextId := s.nextId,
               futures := alSet s.futures id (JobPhase.done o true),
               results := alSet s.results id (callbackResult o) }
  | cancelPending (s : TMState) (id : Nat)
      (h : alGet s.futures id = some JobPhase.pending) :
      Step s { s with futures := alSet s.futures id (JobPhase.cancelled false) }
  | cancelCallback (s : TMState) (id : Nat)
      (h : alGet s.futures id = some (JobPhase.cancelled false)) :
      Step s { nextId := s.nextId,
               futures := alSet s.futures id (JobPhase.cancelled true),
               results := alSet s.results id (callbackResult (WorkOutcome.raised "")) }

/-- Reflexive-transitive closure of Step from a given state. -/
inductive ReachableFrom : TMState → TMState → Prop where
  | refl (s : TMState) : ReachableFrom s s
  | tail {s t u : TMState} : ReachableFrom s t → Step t u → ReachableFrom s u

/-- The states reachable from a freshly constructed TaskManager by any
interleaving of submissions, worker activity, callbacks and
cancellations. -/
def Reachable (s : TMState) : Prop := ReachableFrom initState s

/-- The job's work has begun executing: a worker claimed it (running)
or already ran it to completion (done). -/
def began (s : TMState) (id : Nat) : Prop :=
  alGet s.futures id = some JobPhase.running ∨
  ∃ o b, alGet s.futures id = some (JobPhase.done o b)

/-- The registry invariant of reachable TaskManager states: every
issued id is below the freshness counter, and a job whose callback has
run has exactly the converted result stored in _results. -/
structure Inv (s : TMState) : Prop where
  keysLt : ∀ id ph, alGet s.futures id = some ph → id < s.nextId
  doneRes : ∀ id o, alGet s.futures id = some (JobPhase.done o true) →
    alGet s.results id = some (callbackResult o)
  cancelRes : ∀ id, alGet s.futures id = some (JobPhase.cancelled true) →
    alGet s.results id = some (callbackResult (WorkOutcome.raised ""))

end TaskManager

/-- A concrete strategy whose can_handle declines every url. -/
def declineStrategy (nm : String) : Strategy :=
  ⟨nm, fun _ => Except.ok false, fun _ => Except.ok [("success", PyObj.bool true)]⟩

/-- A concrete strategy that handles every url and succeeds with the
given result dict. -/
def okStrategy (nm : String) (r : PyDict) : Strategy :=
  ⟨nm, fun _ => Except.ok true, fun _ => Except.ok r⟩

/-- A concrete strategy that handles every url and fails with the given
error message. -/
def failStrategy (nm e : String) : Strategy :=
  ⟨nm, fun _ => Except.ok true,
   fun _ => Except.ok [("success", PyObj.bool false), ("error", PyObj.str e)]⟩

/-- A concrete strategy that handles every url and fails without any
error entry in its result dict. -/
def failSilentStrategy (nm : String) : Strategy :=
  ⟨nm, fun _ => Except.ok true, fun _ => Except.ok [("success", PyObj.bool false)]⟩

/-- A concrete strategy named "file" whose can_handle declines and
whose scrape self-reports failure, like FileScraper on an HTML page. -/
def fileLikeStrategy : Strategy :=
  ⟨"file", fun _ => Except.ok false,
   fun _ => Except.ok [("success", PyObj.bool false),
                       ("error", PyObj.str "Resource appears to be HTML")]⟩

/-- A concrete success result with populated metadata (including a
"scraper" entry written by the strategy itself), used as witness
input. -/
def witSuccessResult : PyDict :=
  [("success", PyObj.bool true),
   ("metadata", PyObj.dict [("scraper", PyObj.str "inner"), ("title", PyObj.str "T")]),
   ("text", PyObj.str "hello")]

/-- The TaskManager state after a single submit: one queued job with
id 0, nothing stored. -/
def pendingState : TaskManager.TMState :=
  { nextId := 1, futures := [(0, TaskManager.JobPhase.pending)], results := [] }

/-- The TaskManager state after one job was submitted, claimed by a
worker, completed with the given outcome, and had its done-callback
run. -/
def doneState (o : TaskManager.WorkOutcome) : TaskManager.TMState :=
  { nextId := 1,
    futures := [(0, TaskManager.JobPhase.done o true)],
    results := [(0, TaskManager.callbackResult o)] }

/-- The TaskManager state after cancelling the queued job of
pendingState, before the cancel-triggered callback runs. -/
def cancelledState : TaskManager.TMState :=
  { nextId := 1, futures := [(0, TaskManager.JobPhase.cancelled false)], results := [] }

/-- The TaskManager state in which one job's work has completed — its
future is done with the given outcome — but the done-callback has not
yet stored the result. -/
def preCallbackState (o : TaskManager.WorkOutcome) : TaskManager.TMState :=
  { nextId := 1, futures := [(0, TaskManager.JobPhase.done o false)], results := [] }

theorem alGet_alSet_self {κ α : Type} [DecidableEq κ] (d : List (κ × α)) (k : κ) (v : α) :
    alGet (alSet d k v) k = some v := by
  induction d with
  | nil => simp [alGet, alSet]
  | cons e rest ih =>
    obtain ⟨k2, w⟩ := e
    by_cases h : k2 = k
    · simp [alSet, alGet, h]
    · simp [alSet, alGet, h, ih]

theorem alGet_alSet_ne {κ α : Type} [DecidableEq κ] (d : List (κ × α)) (k k2 : κ) (v : α)
    (h : k2 ≠ k) : alGet (alSet d k v) k2 = alGet d k2 := by
  induction d with
  | nil => simp [alGet, alSet, Ne.symm h]
  | cons e rest ih =>
    obtain ⟨k3, w⟩ := e
    by_cases h3 : k3 = k
    · subst h3
      simp [alSet, alGet, Ne.symm h]
    · simp [alSet, alGet, h3, ih]

theorem alSetdefault_present {κ α : Type} [DecidableEq κ] (d : List (κ × α)) (k : κ) (v w : α)
    (h : alGet d k = some w) : alSetdefault d k v = d := by
  simp [alSetdefault, h]

theorem alGet_append_absent {κ α : Type} [DecidableEq κ] (d : List (κ × α)) (k : κ) (v : α)
    (h : alGet d k = Option.none) : alGet (d ++ [(k, v)]) k = some v := by
  induction d with
  | nil => simp [alGet]
  | cons e rest ih =>
    obtain ⟨k2, w⟩ := e
    by_cases h2 : k2 = k
    · simp [alGet, h2] at h
    · simp [alGet, h2] at h ⊢
      exact ih h

namespace CombinedScraper

theorem scrapeAuxT_fst (l : List Strategy) (url : String) (errors inv : List String) :
    (scrapeAuxT l url errors inv).fst = scrapeAux l url errors := by
  induction l generalizing errors inv with
  | nil => rfl
  | cons s rest ih =>
    by_cases hsk : shouldSkip s url
    · simp [scrapeAuxT, scrapeAux, hsk, ih]
    · cases hr : s.scrape url with
      | error e => simp [scrapeAuxT, scrapeAux, hsk, hr, ih]
      | ok result =>
        by_cases hsucc : truthy (pyGet result "success")
        · simp [scrapeAuxT, scrapeAux, hsk, hr, hsucc]
        · cases he : alGet result "error" with
          | none => simp [scrapeAuxT, scrapeAux, hsk, hr, hsucc, he, ih]
          | some v =>
            by_cases hv : truthy v
            · simp [scrapeAuxT, scrapeAux, hsk, hr, hsucc, he, hv, ih]
            · simp [scrapeAuxT, scrapeAux, hsk, hr, hsucc, he, hv, ih]

theorem scrapeAuxT_snd_extends (l : List Strategy) (url : String) (errors inv : List String) :
    ∃ t, (scrapeAuxT l url errors inv).snd = inv ++ t := by
  induction l generalizing errors inv with
  | nil => exact ⟨[], by simp [scrapeAuxT]⟩
  | cons s rest ih =>
    by_cases hsk : shouldSkip s url
    · obtain ⟨t, ht⟩ := ih errors inv
      exact ⟨t, by simp [scrapeAuxT, hsk, ht]⟩
    · cases hr : s.scrape url with
      | error e =>
        obtain ⟨t, ht⟩ := ih (errors ++ [s.name ++ " scraper raised exception: " ++ e])
          (inv ++ [s.name])
        exact ⟨s.name :: t, by simp [scrapeAuxT, hsk, hr, ht]⟩
      | ok result =>
        by_cases hsucc : truthy (pyGet result "success")
        · exact ⟨[s.name], by simp [scrapeAuxT, hsk, hr, hsucc]⟩
        · cases he : alGet result "error" with
          | none =>
            obtain ⟨t, ht⟩ := ih errors (inv ++ [s.name])
            exact ⟨s.name :: t, by simp [scrapeAuxT, hsk, hr, hsucc, he, ht]⟩
          | some v =>
            by_cases hv : truthy v
            · obtain ⟨t, ht⟩ := ih (errors ++ [s.name ++ ": " ++ pyStr v]) (inv ++ [s.name])
              exact ⟨s.name :: t, by simp [scrapeAuxT, hsk, hr, hsucc, he, hv, ht]⟩
            · obtain ⟨t, ht⟩ := ih errors (inv ++ [s.name])
              exact ⟨s.name :: t, by simp [scrapeAuxT, hsk, hr, hsucc, he, hv, ht]⟩

theorem scrapeAuxT_noSuccess_cons (s : Strategy) (rest : List Strategy) (url : String)
    (errors inv : List String) (h : NoSuccess s url) :
    scrapeAuxT (s :: rest) url errors inv =
      scrapeAuxT rest url (errors ++ failEntries s url) (inv ++ invokedName s url) := by
  by_cases hsk : shouldSkip s url
  · simp [scrapeAuxT, failEntries, invokedName, hsk]
  · rcases h with hsk2 | ⟨e, he⟩ | ⟨r, hr, hf⟩
    · exact absurd hsk2 hsk
    · simp [scrapeAuxT, failEntries, invokedName, hsk, he]
    · cases he2 : alGet r "error" with
      | none => simp [scrapeAuxT, failEntries, invokedName, hsk, hr, hf, he2]
      | some v =>
        by_cases hv : truthy v
        · simp [scrapeAuxT, failEntries, invokedName, hsk, hr, hf, he2, hv]
        · simp [scrapeAuxT, failEntries, invokedName, hsk, hr, hf, he2, hv]

theorem scrapeAuxT_append_noSuccess (pre l : List Strategy) (url : String)
    (errors inv : List String) (h : ∀ t ∈ pre, NoSuccess t url) :
    scrapeAuxT (pre ++ l) url errors inv =
      scrapeAuxT l url (errors ++ pre.flatMap (fun t => failEntries t url))
        (inv ++ pre.flatMap (fun t => invokedName t url)) := by
  induction pre generalizing errors inv with
  | nil => simp
  | cons t rest ih =>
    have h1 : NoSuccess t url := h t (by simp)
    have h2 : ∀ u ∈ rest, NoSuccess u url := fun u hu => h u (by simp [hu])
    rw [List.cons_append, scrapeAuxT_noSuccess_cons t _ url errors inv h1, ih _ _ h2]
    simp [List.append_assoc]

theorem attachScraper_ok (r : PyDict) (nm : String)
    (hm : alGet r "metadata" = Option.none ∨ ∃ m, alGet r "metadata" = some (PyObj.dict m)) :
    ∃ r2, attachScraper r nm = Except.ok r2 ∧ metadataScraper r2 = some (PyObj.str nm) := by
  rcases hm with hm | ⟨m, hm⟩
  · refine ⟨alSet (r ++ [("metadata", PyObj.dict [])]) "metadata"
      (PyObj.dict (alSet [] "scraper" (PyObj.str nm))), ?_, ?_⟩
    · simp [attachScraper, alSetdefault, hm, alGet_append_absent r "metadata" _ hm]
    · simp [metadataScraper, alGet_alSet_self, alGet, alSet]
  · refine ⟨alSet r "metadata" (PyObj.dict (alSet m "scraper" (PyObj.str nm))), ?_, ?_⟩
    · simp [attachScraper, alSetdefault_present r "metadata" _ _ hm, hm]
    · simp [metadataScraper, alGet_alSet_self]

end CombinedScraper

theorem alGet_append_ne {κ α : Type} [DecidableEq κ] (d : List (κ × α)) (k k2 : κ) (v : α)
    (h : k2 ≠ k) : alGet (d ++ [(k, v)]) k2 = alGet d k2 := by
  induction d with
  | nil => simp [alGet, Ne.symm h]
  | cons e rest ih =>
    obtain ⟨k3, w⟩ := e
    by_cases h3 : k3 = k2
    · simp [alGet, h3]
    · simp [alGet, h3, ih]

namespace TaskManager

theorem inv_init : Inv initState := by
  refine ⟨fun id ph h => ?_, fun id o h => ?_, fun id h => ?_⟩ <;>
    simp [initState, alGet] at h

theorem inv_step {s t : TMState} (hst : Step s t) (hs : Inv s) : Inv t := by
  obtain ⟨hk, hd, hc⟩ := hs
  cases hst with
  | submit =>
    refine ⟨fun id ph h => ?_, fun id o h => ?_, fun id h => ?_⟩
    · by_cases hid : id = s.nextId
      · subst hid; exact Nat.lt_succ_self _
      · exact Nat.lt_succ_of_lt (hk id ph (by rwa [alGet_alSet_ne _ _ _ _ hid] at h))
    · by_cases hid : id = s.nextId
      · subst hid; rw [alGet_alSet_self] at h; simp at h
      · exact hd id o (by rwa [alGet_alSet_ne _ _ _ _ hid] at h)
    · by_cases hid : id = s.nextId
      · subst hid; rw [alGet_alSet_self] at h; simp at h
      · exact hc id (by rwa [alGet_alSet_ne _ _ _ _ hid] at h)
  | start id2 h2 =>
    refine ⟨fun id ph h => ?_, fun id o h => ?_, fun id h => ?_⟩
    · by_cases hid : id = id2
      · subst hid; exact hk id _ h2
      · exact hk id ph (by rwa [alGet_alSet_ne _ _ _ _ hid] at h)
    · by_cases hid : id = id2
      · subst hid; rw [alGet_alSet_self] at h; simp at h
      · exact hd id o (by rwa [alGet_alSet_ne _ _ _ _ hid] at h)
    · by_cases hid : id = id2
      · subst hid; rw [alGet_alSet_self] at h; simp at h
      · exact hc id (by rwa [alGet_alSet_ne _ _ _ _ hid] at h)
  | finishWork id2 o h2 =>
    refine ⟨fun id ph h => ?_, fun id o2 h => ?_, fun id h => ?_⟩
    · by_cases hid : id = id2
      · subst hid; exact hk id _ h2
      · exact hk id ph (by rwa [alGet_alSet_ne _ _ _ _ hid] at h)
    · by_cases hid : id = id2
      · subst hid; rw [alGet_alSet_self] at h; simp at h
      · exact hd id o2 (by rwa [alGet_alSet_ne _ _ _ _ hid] at h)
    · by_cases hid : id = id2
      · subst hid; rw [alGet_alSet_self] at h; simp at h
      · exact hc id (by rwa [alGet_alSet_ne _ _ _ _ hid] at h)
  | runCallback id2 o h2 =>
    refine ⟨fun id ph h => ?_, fun id o2 h => ?_, fun id h => ?_⟩
    · by_cases hid : id = id2
      · subst hid; exact hk id _ h2
      · exact hk id ph (by rwa [alGet_alSet_ne _ _ _ _ hid] at h)
    · by_cases hid : id = id2
      · subst hid
        rw [alGet_alSet_self] at h
        rw [alGet_alSet_self]
        simp only [Option.some.injEq, JobPhase.done.injEq] at h
        rw [h.1]
      · rw [alGet_alSet_ne _ _ _ _ hid] at h
        rw [alGet_alSet_ne _ _ _ _ hid]
        exact hd id o2 h
    · by_cases hid : id = id2
      · subst hid; rw [alGet_alSet_self] at h; simp at h
      · rw [alGet_alSet_ne _ _ _ _ hid] at h
        rw [alGet_alSet_ne _ _ _ _ hid]
        exact hc id h
  | cancelPending id2 h2 =>
    refine ⟨fun id ph h => ?_, fun id o h => ?_, fun id h => ?_⟩
    · by_cases hid : id = id2
      · subst hid; exact hk id _ h2
      · exact hk id ph (by rwa [alGet_alSet_ne _ _ _ _ hid] at h)
    · by_cases hid : id = id2
      · subst hid; rw [alGet_alSet_self] at h; simp at h
      · exact hd id o (by rwa [alGet_alSet_ne _ _ _ _ hid] at h)
    · by_cases hid : id = id2
      · subst hid; rw [alGet_alSet_self] at h; simp at h
      · exact hc id (by rwa [alGet_alSet_ne _ _ _ _ hid] at h)
  | cancelCallback id2 h2 =>
    refine ⟨fun id ph h => ?_, fun id o2 h => ?_, fun id h => ?_⟩
    · by_cases hid : id = id2
      · subst hid; exact hk id _ h2
      · exact hk id ph (by rwa [alGet_alSet_ne _ _ _ _ hid] at h)
    · by_cases hid : id = id2
      · subst hid; rw [alGet_alSet_self] at h; simp at h
      · rw [alGet_alSet_ne _ _ _ _ hid] at h
        rw [alGet_alSet_ne _ _ _ _ hid]
        exact hd id o2 h
    · by_cases hid : id = id2
      · subst hid; rw [alGet_alSet_self]
      · rw [alGet_alSet_ne _ _ _ _ hid] at h
        rw [alGet_alSet_ne _ _ _ _ hid]
        exact hc id h

theorem reachableFrom_inv {s t : TMState} (h : ReachableFrom s t) (hs : Inv s) : Inv t := by
  induction h with
  | refl => exact hs
  | tail hr hst ih => exact inv_step hst ih

theorem reachable_inv {s : TMState} (h : Reachable s) : Inv s :=
  reachableFrom_inv h inv_init

theorem cancelled_stays {s t : TMState} (h : ReachableFrom s t) (id : Nat)
    (hlt : id < s.nextId) (hc : ∃ b, alGet s.futures id = some (JobPhase.cancelled b)) :
    id < t.nextId ∧ ∃ b, alGet t.futures id = some (JobPhase.cancelled b) := by
  induction h with
  | refl => exact ⟨hlt, hc⟩
  | tail hr hst ih =>
    obtain ⟨ih1, b, ih2⟩ := ih
    cases hst with
    | submit =>
      exact ⟨Nat.lt_succ_of_lt ih1, b, by
        rw [alGet_alSet_ne _ _ _ _ (Nat.ne_of_lt ih1)]; exact ih2⟩
    | start id2 h2 =>
      have hid : id ≠ id2 := by rintro rfl; simp [ih2] at h2
      exact ⟨ih1, b, by rw [alGet_alSet_ne _ _ _ _ hid]; exact ih2⟩
    | finishWork id2 o h2 =>
      have hid : id ≠ id2 := by rintro rfl; simp [ih2] at h2
      exact ⟨ih1, b, by rw [alGet_alSet_ne _ _ _ _ hid]; exact ih2⟩
    | runCallback id2 o h2 =>
      have hid : id ≠ id2 := by rintro rfl; simp [ih2] at h2
      exact ⟨ih1, b, by rw [alGet_alSet_ne _ _ _ _ hid]; exact ih2⟩
    | cancelPending id2 h2 =>
      have hid : id ≠ id2 := by rintro rfl; simp [ih2] at h2
      exact ⟨ih1, b, by rw [alGet_alSet_ne _ _ _ _ hid]; exact ih2⟩
    | cancelCallback id2 h2 =>
      by_cases hid : id = id2
      · subst hid; exact ⟨ih1, true, by rw [alGet_alSet_self]⟩
      · exact ⟨ih1, b, by rw [alGet_alSet_ne _ _ _ _ hid]; exact ih2⟩

end TaskManager

namespace CombinedScraper

/-- C1: in a chain pre ++ s :: post where no strategy of pre succeeds
(each is skipped, raises, or returns a failing result), and s is not
skipped and its scrape returns a result with truthy success (whose
metadata, per the result data model, is absent or a dict),
CombinedScraper.scrape returns that result immediately with
metadata.scraper set to s's name, and the invocation trace ends at s —
no strategy of post is ever invoked, and the outcome does not depend
on post at all. -/
theorem first_success_wins (pre : List Strategy) (s : Strategy) (post : List Strategy)
    (url : String) (r : PyDict)
    (hpre : ∀ t ∈ pre, NoSuccess t url)
    (hskip : shouldSkip s url = false)
    (hr : s.scrape url = Except.ok r)
    (hsucc : truthy (pyGet r "success") = true)
    (hm : alGet r "metadata" = Option.none ∨ ∃ m, alGet r "metadata" = some (PyObj.dict m)) :
    ∃ r2, scrapeT (pre ++ s :: post) url =
        (Except.ok r2, pre.flatMap (fun t => invokedName t url) ++ [s.name]) ∧
      metadataScraper r2 = some (PyObj.str s.name) := by
  obtain ⟨r2, har, hms⟩ := attachScraper_ok r s.name hm
  refine ⟨r2, ?_, hms⟩
  rw [scrapeT, scrapeAuxT_append_noSuccess pre _ url [] [] hpre]
  simp [scrapeAuxT, hskip, hr, hsucc, har]

/-- Witness for first_success_wins at the spec's [A, B, C] scenario:
A's can_handle declines, B succeeds, C is present but never invoked. -/
theorem first_success_wins_witness :
    ∃ r2, scrapeT [declineStrategy "A",
        okStrategy "B" [("success", PyObj.bool true), ("metadata", PyObj.dict [])],
        okStrategy "C" [("success", PyObj.bool true)]] "https://example.com" =
        (Except.ok r2, ["B"]) ∧
      metadataScraper r2 = some (PyObj.str "B") := by
  have h := first_success_wins [declineStrategy "A"]
    (okStrategy "B" [("success", PyObj.bool true), ("metadata", PyObj.dict [])])
    [okStrategy "C" [("success", PyObj.bool true)]] "https://example.com"
    [("success", PyObj.bool true), ("metadata", PyObj.dict [])]
    (by
      intro t ht
      rw [List.mem_singleton] at ht
      subst ht
      exact Or.inl rfl)
    rfl rfl rfl (Or.inr ⟨[], rfl⟩)
  exact h

/-- C2 counterexample: with the single always-failing strategy below
the chain exhausts; the returned result has success = false,
metadata.scraper = "none" and the accumulated errors, but its error
value is the string "All scraping strategies failed" — not
"All strategies failed" as the claim states. -/
theorem exhaustion_message_counterexample :
    scrape [failStrategy "s1" "boom"] "https://example.com" =
      Except.ok (noStrategyResult ["s1: boom"]) ∧
    alGet (noStrategyResult ["s1: boom"]) "error" =
      some (PyObj.str "All scraping strategies failed") ∧
    "All scraping strategies failed" ≠ "All strategies failed" := by
  exact ⟨rfl, rfl, by decide⟩

/-- C2 amended: when the loop exhausts without any strategy returning
truthy success, the chain returns success = false, metadata.scraper
= "none", the accumulated failure list under the errors key, and the
error string "All scraping strategies failed" (the code's message). -/
theorem exhaustion_result (chain : List Strategy) (url : String)
    (h : ∀ t ∈ chain, NoSuccess t url) :
    scrape chain url =
      Except.ok (noStrategyResult (chain.flatMap (fun t => failEntries t url))) ∧
    ∀ errs, alGet (noStrategyResult errs) "success" = some (PyObj.bool false) ∧
      metadataScraper (noStrategyResult errs) = some (PyObj.str "none") ∧
      alGet (noStrategyResult errs) "errors" = some (PyObj.list (errs.map PyObj.str)) ∧
      alGet (noStrategyResult errs) "error" =
        some (PyObj.str "All scraping strategies failed") := by
  constructor
  · have happ := scrapeAuxT_append_noSuccess chain [] url [] [] h
    rw [List.append_nil] at happ
    show scrapeAux chain url [] = _
    rw [← scrapeAuxT_fst chain url [] [], happ]
    simp [scrapeAuxT]
  · intro errs
    exact ⟨rfl, rfl, rfl, rfl⟩

/-- Witness for exhaustion_result on a chain of a failing strategy
with an error message and a failing strategy without one. -/
theorem exhaustion_result_witness :
    scrape [failStrategy "s1" "boom", failSilentStrategy "s2"] "https://example.com" =
      Except.ok (noStrategyResult ["s1: boom"]) := by
  have h := exhaustion_result [failStrategy "s1" "boom", failSilentStrategy "s2"]
    "https://example.com"
    (by
      intro t ht
      rcases List.mem_cons.mp ht with rfl | ht2
      · exact Or.inr (Or.inr ⟨_, rfl, rfl⟩)
      · rw [List.mem_singleton] at ht2
        subst ht2
        exact Or.inr (Or.inr ⟨_, rfl, rfl⟩))
  exact h.1

/-- C3 counterexample: a chain of one strategy which is invoked (the
trace is ["s2"]) and fails without an error string; the returned
errors list is empty — not one entry per invoked strategy. -/
theorem errors_per_invoked_counterexample :
    (scrapeT [failSilentStrategy "s2"] "https://example.com").snd = ["s2"] ∧
    (scrapeT [failSilentStrategy "s2"] "https://example.com").fst =
      Except.ok (noStrategyResult []) ∧
    alGet (noStrategyResult []) "errors" = some (PyObj.list []) ∧
    (["s2"] : List String).length ≠ ([] : List PyObj).length := by
  exact ⟨rfl, rfl, rfl, by decide⟩

/-- C3 amended: when every strategy fails, the invocation trace is the
non-skipped strategies in chain order and the errors list is exactly
the concatenation, in invocation order, of each strategy's
contribution: one entry when its scrape raised or its failing result
carries a truthy error value, and no entry otherwise — in particular
an invoked strategy whose failure result carries no error string
contributes nothing. -/
theorem exhaustion_errors_accumulation (chain : List Strategy) (url : String)
    (h : ∀ t ∈ chain, NoSuccess t url) :
    (scrapeT chain url).snd = chain.flatMap (fun t => invokedName t url) ∧
    (scrapeT chain url).fst =
      Except.ok (noStrategyResult (chain.flatMap (fun t => failEntries t url))) ∧
    ∀ t, (invokedName t url = [] → failEntries t url = []) ∧
      (failEntries t url).length ≤ 1 := by
  have happ := scrapeAuxT_append_noSuccess chain [] url [] [] h
  rw [List.append_nil] at happ
  rw [scrapeT, happ]
  refine ⟨by simp [scrapeAuxT], by simp [scrapeAuxT], ?_⟩
  intro t
  constructor
  · intro hinv
    by_cases hsk : shouldSkip t url
    · simp [failEntries, hsk]
    · simp [invokedName, hsk] at hinv
  · by_cases hsk : shouldSkip t url
    · simp [failEntries, hsk]
    · cases hr : t.scrape url with
      | error e => simp [failEntries, hsk, hr]
      | ok result =>
        by_cases hsucc : truthy (pyGet result "success")
        · simp [failEntries, hsk, hr, hsucc]
        · cases he : alGet result "error" with
          | none => simp [failEntries, hsk, hr, hsucc, he]
          | some v =>
            by_cases hv : truthy v <;> simp [failEntries, hsk, hr, hsucc, he, hv]

/-- Witness for exhaustion_errors_accumulation: the raising entry for
"s1", nothing for the silent "s2", and the skipped "s3" not invoked. -/
theorem exhaustion_errors_accumulation_witness :
    (scrapeT [failStrategy "s1" "boom", failSilentStrategy "s2", declineStrategy "s3"]
      "https://example.com").snd = ["s1", "s2"] ∧
    (scrapeT [failStrategy "s1" "boom", failSilentStrategy "s2", declineStrategy "s3"]
      "https://example.com").fst = Except.ok (noStrategyResult ["s1: boom"]) := by
  have h := exhaustion_errors_accumulation
    [failStrategy "s1" "boom", failSilentStrategy "s2", declineStrategy "s3"]
    "https://example.com"
    (by
      intro t ht
      rcases List.mem_cons.mp ht with rfl | ht2
      · exact Or.inr (Or.inr ⟨_, rfl, rfl⟩)
      rcases List.mem_cons.mp ht2 with rfl | ht3
      · exact Or.inr (Or.inr ⟨_, rfl, rfl⟩)
      rw [List.mem_singleton] at ht3
      subst ht3
      exact Or.inl rfl)
  exact ⟨h.1, h.2.1⟩

end CombinedScraper

namespace CombinedScraper

/-- C9: a strategy named "file" (the FileScraper) is never skipped —
its scrape is invoked, appearing in the trace right after the
already-invoked strategies, regardless of what its can_handle would
return (the predicate is not even evaluated) — while any other
strategy whose can_handle returns false or raises is skipped without
its scrape being invoked: the chain behaves exactly as if that
strategy were absent. -/
theorem file_always_attempted (s : Strategy) (rest : List Strategy) (url : String)
    (errors inv : List String) :
    (s.name = "file" →
      ∃ t, (scrapeAuxT (s :: rest) url errors inv).snd = inv ++ s.name :: t) ∧
    (s.name ≠ "file" →
      (s.can_handle url = Except.ok false ∨ ∃ e, s.can_handle url = Except.error e) →
      scrapeAuxT (s :: rest) url errors inv = scrapeAuxT rest url errors inv) := by
  constructor
  · intro hn
    have hsk : shouldSkip s url = false := by simp [shouldSkip, hn]
    cases hr : s.scrape url with
    | error e =>
      obtain ⟨t, ht⟩ := scrapeAuxT_snd_extends rest url
        (errors ++ [s.name ++ " scraper raised exception: " ++ e]) (inv ++ [s.name])
      exact ⟨t, by simp [scrapeAuxT, hsk, hr, ht]⟩
    | ok result =>
      by_cases hsucc : truthy (pyGet result "success")
      · exact ⟨[], by simp [scrapeAuxT, hsk, hr, hsucc]⟩
      · cases he : alGet result "error" with
        | none =>
          obtain ⟨t, ht⟩ := scrapeAuxT_snd_extends rest url errors (inv ++ [s.name])
          exact ⟨t, by simp [scrapeAuxT, hsk, hr, hsucc, he, ht]⟩
        | some v =>
          by_cases hv : truthy v
          · obtain ⟨t, ht⟩ := scrapeAuxT_snd_extends rest url
              (errors ++ [s.name ++ ": " ++ pyStr v]) (inv ++ [s.name])
            exact ⟨t, by simp [scrapeAuxT, hsk, hr, hsucc, he, hv, ht]⟩
          · obtain ⟨t, ht⟩ := scrapeAuxT_snd_extends rest url errors (inv ++ [s.name])
            exact ⟨t, by simp [scrapeAuxT, hsk, hr, hsucc, he, hv, ht]⟩
  · intro hn hch
    have hsk : shouldSkip s url = true := by
      rcases hch with hch | ⟨e, hch⟩ <;> simp [shouldSkip, hn, hch]
    simp [scrapeAuxT, hsk]

/-- Witness for file_always_attempted: a "file" strategy with a
declining can_handle is still invoked, while a non-"file" strategy
with a declining can_handle is skipped. -/
theorem file_always_attempted_witness :
    (∃ t, (scrapeAuxT [fileLikeStrategy] "https://example.com" [] []).snd =
      [] ++ "file" :: t) ∧
    scrapeAuxT [declineStrategy "s3", fileLikeStrategy] "https://example.com" [] [] =
      scrapeAuxT [fileLikeStrategy] "https://example.com" [] [] := by
  constructor
  · exact (file_always_attempted fileLikeStrategy [] "https://example.com" [] []).1 rfl
  · exact (file_always_attempted (declineStrategy "s3") [fileLikeStrategy]
      "https://example.com" [] []).2 (by decide) (Or.inl rfl)

/-- C10: when a non-skipped strategy's scrape returns a result with
truthy success whose metadata is a dict, the chain returns that very
result with every key other than "metadata" unchanged, and within
metadata only the "scraper" entry changed — set to the strategy's
name, overwriting any value the strategy itself put there — while all
other metadata entries are preserved. -/
theorem success_frame (s : Strategy) (rest : List Strategy) (url : String)
    (errors : List String) (r : PyDict) (m : List (String × PyObj))
    (hskip : shouldSkip s url = false)
    (hr : s.scrape url = Except.ok r)
    (hsucc : truthy (pyGet r "success") = true)
    (hm : alGet r "metadata" = some (PyObj.dict m)) :
    ∃ r2, scrapeAux (s :: rest) url errors = Except.ok r2 ∧
      (∀ k, k ≠ "metadata" → alGet r2 k = alGet r k) ∧
      ∃ m2, alGet r2 "metadata" = some (PyObj.dict m2) ∧
        alGet m2 "scraper" = some (PyObj.str s.name) ∧
        ∀ k, k ≠ "scraper" → alGet m2 k = alGet m k := by
  refine ⟨alSet r "metadata" (PyObj.dict (alSet m "scraper" (PyObj.str s.name))), ?_, ?_, ?_⟩
  · simp [scrapeAux, hskip, hr, hsucc, attachScraper,
      alSetdefault_present r "metadata" _ _ hm, hm]
  · intro k hk
    exact alGet_alSet_ne _ _ _ _ hk
  · exact ⟨alSet m "scraper" (PyObj.str s.name), alGet_alSet_self _ _ _,
      alGet_alSet_self _ _ _, fun k hk => alGet_alSet_ne _ _ _ _ hk⟩

/-- Witness for success_frame on a success result whose metadata
already holds a "scraper" entry ("inner") and a "title" entry. -/
theorem success_frame_witness :
    ∃ r2, scrapeAux [okStrategy "wit" witSuccessResult] "https://example.com" [] =
        Except.ok r2 ∧
      (∀ k, k ≠ "metadata" → alGet r2 k = alGet witSuccessResult k) ∧
      ∃ m2, alGet r2 "metadata" = some (PyObj.dict m2) ∧
        alGet m2 "scraper" = some (PyObj.str "wit") ∧
        ∀ k, k ≠ "scraper" →
          alGet m2 k = alGet [("scraper", PyObj.str "inner"), ("title", PyObj.str "T")] k :=
  success_frame (okStrategy "wit" witSuccessResult) [] "https://example.com" []
    witSuccessResult [("scraper", PyObj.str "inner"), ("title", PyObj.str "T")]
    rfl rfl rfl rfl

end CombinedScraper

namespace TaskManager

theorem pendingState_reachable : Reachable pendingState :=
  ReachableFrom.tail (ReachableFrom.refl initState) (Step.submit initState)

theorem doneState_reachable (o : WorkOutcome) : Reachable (doneState o) :=
  ReachableFrom.tail
    (ReachableFrom.tail
      (ReachableFrom.tail
        (ReachableFrom.tail (ReachableFrom.refl initState) (Step.submit initState))
        (Step.start _ 0 rfl))
      (Step.finishWork _ 0 o rfl))
    (Step.runCallback _ 0 o rfl)

/-- C4: in every reachable state, get_status answers: (None, None) for
an id never issued by submit (absent from the registry — ids are never
removed); ("pending", None) for a pending or a running job; and, for a
completed job (future done with its callback run), ("finished", result)
with the stored result present.  The unknown answer differs from the
pending answer, so an unknown id is always distinguishable from a
pending one. -/
theorem get_status_spec (s : TMState) (id : Nat) (hs : Reachable s) :
    (alGet s.futures id = Option.none →
      get_status s id = (Option.none, Option.none)) ∧
    (alGet s.futures id = some JobPhase.pending →
      get_status s id = (some "pending", Option.none)) ∧
    (alGet s.futures id = some JobPhase.running →
      get_status s id = (some "pending", Option.none)) ∧
    (∀ o, alGet s.futures id = some (JobPhase.done o true) →
      get_status s id = (some "finished", some (callbackResult o))) ∧
    ((Option.none : Option String), (Option.none : Option PyDict)) ≠
      (some "pending", Option.none) := by
  refine ⟨?_, ?_, ?_, ?_, by simp⟩
  · intro h
    simp [get_status, h]
  · intro h
    simp [get_status, h, futDone]
  · intro h
    simp [get_status, h, futDone]
  · intro o h
    have hres := (reachable_inv hs).doneRes id o h
    simp [get_status, h, futDone, hres]

/-- Witness for get_status_spec at the reachable state with one
completed job whose callback has run. -/
theorem get_status_spec_witness :
    (alGet (doneState (WorkOutcome.raised "boom")).futures 0 = Option.none →
      get_status (doneState (WorkOutcome.raised "boom")) 0 = (Option.none, Option.none)) ∧
    (alGet (doneState (WorkOutcome.raised "boom")).futures 0 = some JobPhase.pending →
      get_status (doneState (WorkOutcome.raised "boom")) 0 = (some "pending", Option.none)) ∧
    (alGet (doneState (WorkOutcome.raised "boom")).futures 0 = some JobPhase.running →
      get_status (doneState (WorkOutcome.raised "boom")) 0 = (some "pending", Option.none)) ∧
    (∀ o, alGet (doneState (WorkOutcome.raised "boom")).futures 0 =
        some (JobPhase.done o true) →
      get_status (doneState (WorkOutcome.raised "boom")) 0 =
        (some "finished", some (callbackResult o))) ∧
    ((Option.none : Option String), (Option.none : Option PyDict)) ≠
      (some "pending", Option.none) :=
  get_status_spec (doneState (WorkOutcome.raised "boom")) 0 (doneState_reachable _)

/-- C5 (the code violates the claim): a reachable interleaving in
which a job's work has completed — its future is done, holding a
returned success dict — but the done-callback has not yet stored the
result into _results; get_status then returns ("finished", None): the
finished status paired with an absent result. -/
theorem finished_without_result_reachable :
    Reachable (preCallbackState (WorkOutcome.returnedDict [("success", PyObj.bool true)])) ∧
    alGet (preCallbackState
        (WorkOutcome.returnedDict [("success", PyObj.bool true)])).futures 0 =
      some (JobPhase.done (WorkOutcome.returnedDict [("success", PyObj.bool true)]) false) ∧
    get_status (preCallbackState
        (WorkOutcome.returnedDict [("success", PyObj.bool true)])) 0 =
      (some "finished", Option.none) := by
  refine ⟨?_, rfl, rfl⟩
  exact ReachableFrom.tail
    (ReachableFrom.tail
      (ReachableFrom.tail (ReachableFrom.refl initState) (Step.submit initState))
      (Step.start _ 0 rfl))
    (Step.finishWork _ 0 _ rfl)

/-- C6 counterexample: at the reachable state holding one queued job,
cancel(0) returns true and the cancel transition applies, yet in the
resulting state get_status reports the job's status as "finished" —
there is no distinct cancelled status — refuting "never reported as
Finished". -/
theorem cancel_reported_finished_counterexample :
    Reachable pendingState ∧
    alGet pendingState.futures 0 = some JobPhase.pending ∧
    cancel pendingState 0 = true ∧
    Step pendingState cancelledState ∧
    (get_status cancelledState 0).fst = some "finished" ∧
    (get_status cancelledState 0).fst ≠ some "cancelled" :=
  ⟨pendingState_reachable, rfl, rfl, Step.cancelPending pendingState 0 rfl, rfl, by decide⟩

/-- C6 amended: cancelling a queued (pending) job returns true, and in
every subsequently reachable state the job's future stays cancelled —
its work never runs and it never reaches the done (Finished future)
state — but get_status thereafter reports the job with the status
string "finished", since the manager exposes no distinct cancelled
status. -/
theorem cancel_pending_spec (s : TMState) (id : Nat) (hs : Reachable s)
    (hp : alGet s.futures id = some JobPhase.pending) :
    cancel s id = true ∧
    ∀ t, ReachableFrom
        { s with futures := alSet s.futures id (JobPhase.cancelled false) } t →
      (∃ b, alGet t.futures id = some (JobPhase.cancelled b)) ∧
      (get_status t id).fst = some "finished" ∧
      ∀ o b, alGet t.futures id ≠ some (JobPhase.done o b) := by
  constructor
  · simp [cancel, hp]
  · intro t ht
    have hlt : id < s.nextId := (reachable_inv hs).keysLt id _ hp
    obtain ⟨hlt2, b, hb⟩ := cancelled_stays ht id hlt ⟨false, alGet_alSet_self _ _ _⟩
    refine ⟨⟨b, hb⟩, ?_, ?_⟩
    · simp [get_status, hb, futDone]
    · intro o b2 hcon
      rw [hb] at hcon
      simp at hcon

/-- Witness for cancel_pending_spec at the reachable state with one
queued job. -/
theorem cancel_pending_spec_witness :
    cancel pendingState 0 = true ∧
    ∀ t, ReachableFrom
        { pendingState with
            futures := alSet pendingState.futures 0 (JobPhase.cancelled false) } t →
      (∃ b, alGet t.futures 0 = some (JobPhase.cancelled b)) ∧
      (get_status t 0).fst = some "finished" ∧
      ∀ o b, alGet t.futures 0 ≠ some (JobPhase.done o b) :=
  cancel_pending_spec pendingState 0 pendingState_reachable rfl

/-- C7: in every reachable state cancel returns true only for a job
whose work has not begun executing — a pending future (which it
cancels) or an already-cancelled one, and a cancelled job stays
unbegun in every subsequently reachable state — and returns false
whenever the job is already running, already finished (done), or the
id is unknown. -/
theorem tryCancel_spec (s : TMState) (id : Nat) (hs : Reachable s) :
    (cancel s id = true → ¬ began s id) ∧
    (alGet s.futures id = Option.none → cancel s id = false) ∧
    (alGet s.futures id = some JobPhase.running → cancel s id = false) ∧
    (∀ o b, alGet s.futures id = some (JobPhase.done o b) → cancel s id = false) ∧
    (∀ b, alGet s.futures id = some (JobPhase.cancelled b) →
      ∀ t, ReachableFrom s t → ¬ began t id) := by
  refine ⟨?_, ?_, ?_, ?_, ?_⟩
  · intro hc hb
    rcases hb with hb | ⟨o, b, hb⟩ <;> simp [cancel, hb] at hc
  · intro h
    simp [cancel, h]
  · intro h
    simp [cancel, h]
  · intro o b h
    simp [cancel, h]
  · intro b hb t ht hb2
    have hlt : id < s.nextId := (reachable_inv hs).keysLt id _ hb
    obtain ⟨hlt2, b2, hb3⟩ := cancelled_stays ht id hlt ⟨b, hb⟩
    rcases hb2 with hr | ⟨o, b3, hr⟩ <;> rw [hb3] at hr <;> simp at hr

/-- Witness for tryCancel_spec at the reachable state with one queued
job. -/
theorem tryCancel_spec_witness :
    (cancel pendingState 0 = true → ¬ began pendingState 0) ∧
    (alGet pendingState.futures 0 = Option.none → cancel pendingState 0 = false) ∧
    (alGet pendingState.futures 0 = some JobPhase.running → cancel pendingState 0 = false) ∧
    (∀ o b, alGet pendingState.futures 0 = some (JobPhase.done o b) →
      cancel pendingState 0 = false) ∧
    (∀ b, alGet pendingState.futures 0 = some (JobPhase.cancelled b) →
      ∀ t, ReachableFrom pendingState t → ¬ began t 0) :=
  tryCancel_spec pendingState 0 pendingState_reachable

/-- C8 counterexample: a reachable state in which the work returned a
non-dict value (an int); the stored result's error string is
"Invalid result type <class \x27int\x27>" — it names the type and is
capitalised — not the claim's literal "invalid result type". -/
theorem invalid_result_message_counterexample :
    Reachable (doneState (WorkOutcome.returnedOther "<class \x27int\x27>")) ∧
    alGet (doneState (WorkOutcome.returnedOther "<class \x27int\x27>")).results 0 =
      some (callbackResult (WorkOutcome.returnedOther "<class \x27int\x27>")) ∧
    alGet (callbackResult (WorkOutcome.returnedOther "<class \x27int\x27>")) "error" =
      some (PyObj.str "Invalid result type <class \x27int\x27>") ∧
    "Invalid result type <class \x27int\x27>" ≠ "invalid result type" :=
  ⟨doneState_reachable _, rfl, rfl, by decide⟩

/-- C8 amended: for every completed job (future done with its callback
run) in a reachable state, the stored result is exactly the callback
conversion of the work's outcome — a raised fault becomes a failure
dict with error = str(exc), a non-dict return value becomes a failure
dict with error = "Invalid result type <type>" naming the value's
type, and a dict is stored as-is — and no further step of the system
ever changes that stored result: it is stored exactly once. -/
theorem completion_conversion_spec (s : TMState) (id : Nat) (o : WorkOutcome)
    (hs : Reachable s) (h : alGet s.futures id = some (JobPhase.done o true)) :
    alGet s.results id = some (callbackResult o) ∧
    (∀ msg, callbackResult (WorkOutcome.raised msg) =
      [("success", PyObj.bool false), ("error", PyObj.str msg)]) ∧
    (∀ ty, callbackResult (WorkOutcome.returnedOther ty) =
      [("success", PyObj.bool false),
       ("error", PyObj.str ("Invalid result type " ++ ty))]) ∧
    (∀ d, callbackResult (WorkOutcome.returnedDict d) = d) ∧
    (∀ t, Step s t → alGet t.results id = alGet s.results id) := by
  refine ⟨(reachable_inv hs).doneRes id o h, fun msg => rfl, fun ty => rfl,
    fun d => rfl, ?_⟩
  intro t hst
  cases hst with
  | submit => rfl
  | start id2 h2 => rfl
  | finishWork id2 o2 h2 => rfl
  | runCallback id2 o2 h2 =>
    have hne : id ≠ id2 := by
      rintro rfl
      rw [h] at h2
      simp at h2
    exact alGet_alSet_ne _ _ _ _ hne
  | cancelPending id2 h2 => rfl
  | cancelCallback id2 h2 =>
    have hne : id ≠ id2 := by
      rintro rfl
      rw [h] at h2
      simp at h2
    exact alGet_alSet_ne _ _ _ _ hne

/-- Witness for completion_conversion_spec at the reachable state with
one completed job that returned a proper dict. -/
theorem completion_conversion_spec_witness :
    alGet (doneState (WorkOutcome.returnedDict [("success", PyObj.bool true)])).results 0 =
      some (callbackResult (WorkOutcome.returnedDict [("success", PyObj.bool true)])) ∧
    (∀ msg, callbackResult (WorkOutcome.raised msg) =
      [("success", PyObj.bool false), ("error", PyObj.str msg)]) ∧
    (∀ ty, callbackResult (WorkOutcome.returnedOther ty) =
      [("success", PyObj.bool false),
       ("error", PyObj.str ("Invalid result type " ++ ty))]) ∧
    (∀ d, callbackResult (WorkOutcome.returnedDict d) = d) ∧
    (∀ t, Step (doneState (WorkOutcome.returnedDict [("success", PyObj.bool true)])) t →
      alGet t.results 0 =
        alGet (doneState (WorkOutcome.returnedDict [("success", PyObj.bool true)])).results 0) :=
  completion_conversion_spec
    (doneState (WorkOutcome.returnedDict [("success", PyObj.bool true)])) 0
    (WorkOutcome.returnedDict [("success", PyObj.bool true)])
    (doneState_reachable _) rfl

end TaskManager
